import Mathlib

/-!
Verification development for the sv-edge booking backend.

This file shallowly embeds the booking lifecycle code of the repository:
the status-transition validator and the item-selection handler
(update-booking-items), the customer cancellation handler (booking-cancel),
the staff completion handler (complete-service), the payment webhook's
idempotency ledger (stripe-webhook), and the scheduling webhook's signature
verifier (calendly-webhook), and proves properties of those embeddings.

Database tables are modelled as lists of records; each HTTP handler becomes a
pure function from a request and a database state to a response and a new
database state.  Store operations that the handlers treat as fallible are
given explicit boolean failure switches where a claim depends on the failure
branch.  The cryptographic HMAC-SHA256 primitive is an abstract function
parameter.
-/

namespace SVEdge

/-- Booking ("action") statuses, from the VALID_TRANSITIONS table of
update-booking-items. -/
inductive BStatus : Type
  | pending_items
  | pending_confirmation
  | confirmed
  | in_progress
  | completed
  | canceled
deriving DecidableEq, Repr, Fintype

/-- Item statuses: home / scheduled / stored, plus in_transit which the
partitioner explicitly ignores. -/
inductive IStatus : Type
  | home
  | scheduled
  | stored
  | in_transit
deriving DecidableEq, Repr, Fintype

/-- Service type of a booking. -/
inductive SType : Type
  | pickup
  | delivery
deriving DecidableEq, Repr, Fintype

/-- One row of the items table (the columns the handlers read). -/
structure Item : Type where
  id : Nat
  user_id : Nat
  status : IStatus
deriving DecidableEq, Repr

/-- One row of the actions (bookings) table (the columns the handlers read). -/
structure Action : Type where
  id : Nat
  user_id : Nat
  status : BStatus
  service_type : SType
  pickup_item_ids : List Nat
  delivery_item_ids : List Nat
deriving DecidableEq, Repr

/-- The entity store: actions, items, and the staff registry
(sv.staff, read by complete-service). -/
structure DB : Type where
  actions : List Action
  items : List Item
  staff : List Nat
deriving DecidableEq, Repr

/-- The VALID_TRANSITIONS record of update-booking-items:
each status maps to the list of statuses it may transition to. -/
def VALID_TRANSITIONS : BStatus → List BStatus
  | .pending_items => [.pending_confirmation, .canceled]
  | .pending_confirmation => [.confirmed, .canceled]
  | .confirmed => [.in_progress, .canceled]
  | .in_progress => [.completed, .canceled]
  | .completed => []
  | .canceled => []

/-- isValidTransition of update-booking-items:
membership of the target status in the source status's row of
VALID_TRANSITIONS. -/
def isValidTransition (f t : BStatus) : Bool :=
  (VALID_TRANSITIONS f).contains t

/-- The transition table as written in section 4.3 of the specification
(for comparison with the table the code actually uses). -/
def specTransitionTable : BStatus → List BStatus
  | .pending_items => [.pending_confirmation, .canceled]
  | .pending_confirmation => [.confirmed, .canceled, .pending_confirmation]
  | .confirmed => [.in_progress, .completed, .canceled]
  | .in_progress => [.completed, .canceled]
  | .completed => []
  | .canceled => []

/-- The partition loop of the v1.0 update-booking-items revision:
status home pushes the id onto the pickup list, status stored onto the
delivery list, every other status is ignored. -/
def partitionStepV1 (acc : List Nat × List Nat) (item : Item) : List Nat × List Nat :=
  if item.status = .home then (acc.1 ++ [item.id], acc.2)
  else if item.status = .stored then (acc.1, acc.2 ++ [item.id])
  else acc

/-- The v1.0 partitioner: fold the per-item step over the fetched items,
starting from two empty lists. -/
def partitionItemsV1 (items : List Item) : List Nat × List Nat :=
  items.foldl partitionStepV1 ([], [])

/-- The partition loop of the v1.1 update-booking-items revision:
home goes to pickup, stored to delivery, and a scheduled item keeps the
direction recorded in the booking's previous pickup/delivery arrays
(skipped when it appears in neither); every other status is ignored. -/
def partitionStep (prevPickupIds prevDeliveryIds : List Nat)
    (acc : List Nat × List Nat) (item : Item) : List Nat × List Nat :=
  if item.status = .home then (acc.1 ++ [item.id], acc.2)
  else if item.status = .stored then (acc.1, acc.2 ++ [item.id])
  else if item.status = .scheduled then
    if prevPickupIds.contains item.id then (acc.1 ++ [item.id], acc.2)
    else if prevDeliveryIds.contains item.id then (acc.1, acc.2 ++ [item.id])
    else acc
  else acc

/-- The v1.1 partitioner: fold the per-item step over the fetched items,
starting from two empty lists. -/
def partitionItems (prevPickupIds prevDeliveryIds : List Nat)
    (items : List Item) : List Nat × List Nat :=
  items.foldl (partitionStep prevPickupIds prevDeliveryIds) ([], [])

/-- A bulk items-table UPDATE: set the status of every item whose id is in
ids (update ... set status where id = any(ids), issued with the service-role
client, so with no owner filter). -/
def setItemsStatus (items : List Item) (ids : List Nat) (st : IStatus) : List Item :=
  items.map (fun i => if ids.contains i.id then { i with status := st } else i)

/-- Responses of the update-booking-items handler (after authentication). -/
inductive UResp : Type
  | notFound
  | forbidden
  | invalidState (s : BStatus)
  | invalidTransition (f t : BStatus)
  | ok (pickup delivery : List Nat)
deriving DecidableEq, Repr

/-- The update-booking-items handler (latest revision), for an authenticated
caller userId: fetch the action, check ownership (403 on mismatch), check the
status gate, fetch the selected items, partition them against the previous
arrays, write the arrays and the pending_confirmation status (skipping
transition validation when the status does not change), then set added items
to scheduled, removed pickup items to home, and removed delivery items to
stored. -/
def updateBookingItems (db : DB) (userId action_id : Nat)
    (selected_item_ids : List Nat) : UResp × DB :=
  match db.actions.find? (fun a => a.id == action_id) with
  | none => (.notFound, db)
  | some action =>
    if action.user_id ≠ userId then (.forbidden, db)
    else if ¬ (action.status = .pending_items ∨ action.status = .pending_confirmation) then
      (.invalidState action.status, db)
    else
      let items := db.items.filter (fun i => selected_item_ids.contains i.id)
      let prevPickupIds := action.pickup_item_ids
      let prevDeliveryIds := action.delivery_item_ids
      let parts := partitionItems prevPickupIds prevDeliveryIds items
      let pickupItemIds := parts.1
      let deliveryItemIds := parts.2
      let newStatus :=
        if action.status = .pending_confirmation then BStatus.pending_confirmation
        else BStatus.pending_confirmation
      if action.status ≠ newStatus ∧ isValidTransition action.status newStatus = false then
        (.invalidTransition action.status newStatus, db)
      else
        let actions1 := db.actions.map (fun a =>
          if a.id == action_id then
            { a with pickup_item_ids := pickupItemIds,
                     delivery_item_ids := deliveryItemIds,
                     status := newStatus }
          else a)
        let addedPickupIds := pickupItemIds.filter (fun x => ¬ prevPickupIds.contains x)
        let addedDeliveryIds := deliveryItemIds.filter (fun x => ¬ prevDeliveryIds.contains x)
        let addedIds := addedPickupIds ++ addedDeliveryIds
        let removedPickupIds := prevPickupIds.filter (fun x => ¬ pickupItemIds.contains x)
        let removedDeliveryIds := prevDeliveryIds.filter (fun x => ¬ deliveryItemIds.contains x)
        let items1 :=
          if addedIds.length > 0 then setItemsStatus db.items addedIds .scheduled else db.items
        let items2 :=
          if removedPickupIds.length > 0 then setItemsStatus items1 removedPickupIds .home
          else items1
        let items3 :=
          if removedDeliveryIds.length > 0 then setItemsStatus items2 removedDeliveryIds .stored
          else items2
        (.ok pickupItemIds deliveryItemIds, { db with actions := actions1, items := items3 })

/-- The section 8 example database: booking 1 owned by customer 10 in
pending_items with no items selected yet; item 2 at home and item 3 in
storage, both owned by customer 10. -/
def exampleDB : DB :=
  { actions := [{ id := 1, user_id := 10, status := .pending_items,
                  service_type := .pickup,
                  pickup_item_ids := [], delivery_item_ids := [] }],
    items := [{ id := 2, user_id := 10, status := .home },
              { id := 3, user_id := 10, status := .stored }],
    staff := [7] }

/-- Booking 1 of the example database, already moved to
pending_confirmation (used to exercise the self-loop edit path). -/
def confirmingAction : Action :=
  { id := 1, user_id := 10, status := .pending_confirmation,
    service_type := .pickup, pickup_item_ids := [], delivery_item_ids := [] }

/-- C1 counterexample: the claim asserts the validator accepts every pair of
the section 4.3 table, but isValidTransition rejects confirmed → completed
and the pending_confirmation self-loop even though the table contains both. -/
theorem sv_C1_counterexample :
    isValidTransition BStatus.confirmed BStatus.completed = false
      ∧ (specTransitionTable BStatus.confirmed).contains BStatus.completed = true
      ∧ isValidTransition BStatus.pending_confirmation BStatus.pending_confirmation = false
      ∧ (specTransitionTable BStatus.pending_confirmation).contains
          BStatus.pending_confirmation = true := by
  decide

/-- C1 amended: the validator accepts exactly pending_items →
{pending_confirmation, canceled}, pending_confirmation → {confirmed,
canceled}, confirmed → {in_progress, canceled}, in_progress → {completed,
canceled}, with completed and canceled terminal — that is, the section 4.3
table minus confirmed → completed and minus the pending_confirmation
self-loop; the handler nonetheless accepts the self-loop by skipping
validation when the status does not change, as the concrete run on a
pending_confirmation booking shows. -/
theorem sv_C1_transition_validator :
    (∀ f t : BStatus, isValidTransition f t = true ↔
        ((f = .pending_items ∧ (t = .pending_confirmation ∨ t = .canceled))
          ∨ (f = .pending_confirmation ∧ (t = .confirmed ∨ t = .canceled))
          ∨ (f = .confirmed ∧ (t = .in_progress ∨ t = .canceled))
          ∨ (f = .in_progress ∧ (t = .completed ∨ t = .canceled))))
      ∧ (updateBookingItems
            { exampleDB with actions := [confirmingAction] }
            10 1 [2]).1 = UResp.ok [2] [] := by
  constructor
  · decide
  · decide

/-- C2: the partition round-trip of section 8, run against the
update-booking-items handler.  Selecting items 2 (home) and 3 (stored) yields
pickup [2] and delivery [3] and sets both items to scheduled; re-submitting
the same candidate set returns the same assignment and leaves the database
unchanged; then submitting only item 3 empties the pickup list, keeps
delivery [3], and reverts item 2 to home. -/
theorem sv_C2_partition_round_trip :
    (updateBookingItems exampleDB 10 1 [2, 3]).1 = UResp.ok [2] [3]
      ∧ ((updateBookingItems exampleDB 10 1 [2, 3]).2.items.map Item.status)
          = [IStatus.scheduled, IStatus.scheduled]
      ∧ (updateBookingItems (updateBookingItems exampleDB 10 1 [2, 3]).2 10 1 [2, 3]).1
          = UResp.ok [2] [3]
      ∧ (updateBookingItems (updateBookingItems exampleDB 10 1 [2, 3]).2 10 1 [2, 3]).2
          = (updateBookingItems exampleDB 10 1 [2, 3]).2
      ∧ (updateBookingItems (updateBookingItems exampleDB 10 1 [2, 3]).2 10 1 [3]).1
          = UResp.ok [] [3]
      ∧ ((updateBookingItems (updateBookingItems exampleDB 10 1 [2, 3]).2 10 1 [3]).2.items.map
            Item.status) = [IStatus.home, IStatus.scheduled] := by
  decide

/-- States from which a customer can cancel (CUSTOMER_CANCELABLE_STATES of
booking-cancel). -/
def CUSTOMER_CANCELABLE_STATES : List BStatus := [.pending_items, .pending_confirmation]

/-- Responses of the booking-cancel handler (after authentication):
ok stands for the 200 body with ok true and status canceled (returned both
on a fresh cancellation and on an already-canceled booking), notFound for
the 404 used both when the booking is missing and on ownership mismatch,
conflict for the 409 on non-cancelable states, and serverError for the 500
when the final status write fails. -/
inductive CResp : Type
  | notFound
  | conflict (s : BStatus)
  | ok
  | serverError
deriving DecidableEq, Repr

/-- Failure switches for the three store writes issued by booking-cancel. -/
structure CancelFailures : Type where
  pickupRevertFails : Bool
  deliveryRevertFails : Bool
  statusUpdateFails : Bool
deriving DecidableEq, Repr

/-- The item revert UPDATE of booking-cancel: set the status of every item
whose id is in ids and whose user_id is the caller's (the update carries an
explicit owner filter). -/
def revertItems (items : List Item) (ids : List Nat) (userId : Nat)
    (st : IStatus) : List Item :=
  items.map (fun i =>
    if ids.contains i.id ∧ i.user_id = userId then { i with status := st } else i)

/-- The booking-cancel handler for an authenticated caller userId: fetch the
booking (404 when missing), 404 on ownership mismatch, 200 immediately when
already canceled, 409 when not in a customer-cancelable state; otherwise
revert pickup items to home and delivery items to stored (each revert error
is logged and swallowed), then set the booking status to canceled (500 when
this final write fails). -/
def bookingCancel (db : DB) (userId booking_id : Nat)
    (fail : CancelFailures) : CResp × DB :=
  match db.actions.find? (fun a => a.id == booking_id) with
  | none => (.notFound, db)
  | some booking =>
    if booking.user_id ≠ userId then (.notFound, db)
    else if booking.status = .canceled then (.ok, db)
    else if ¬ CUSTOMER_CANCELABLE_STATES.contains booking.status then
      (.conflict booking.status, db)
    else
      let pickupItemIds := booking.pickup_item_ids
      let deliveryItemIds := booking.delivery_item_ids
      let items1 :=
        if pickupItemIds.length > 0 ∧ fail.pickupRevertFails = false then
          revertItems db.items pickupItemIds userId .home
        else db.items
      let items2 :=
        if deliveryItemIds.length > 0 ∧ fail.deliveryRevertFails = false then
          revertItems items1 deliveryItemIds userId .stored
        else items1
      let db1 := { db with items := items2 }
      if fail.statusUpdateFails then (.serverError, db1)
      else
        (.ok, { db1 with actions := db1.actions.map (fun a =>
          if a.id == booking_id ∧ a.user_id = userId then { a with status := .canceled }
          else a) })

/-- Failure configuration in which every store write succeeds. -/
def allWritesOk : CancelFailures :=
  { pickupRevertFails := false, deliveryRevertFails := false, statusUpdateFails := false }

/-- A canceled booking owned by customer 10, with items 2 and 3 attached. -/
def canceledBooking : Action :=
  { id := 1, user_id := 10, status := .canceled, service_type := .pickup,
    pickup_item_ids := [2], delivery_item_ids := [3] }

/-- Database in which booking 1 is already canceled. -/
def canceledDB : DB :=
  { actions := [canceledBooking],
    items := [{ id := 2, user_id := 10, status := .home },
              { id := 3, user_id := 10, status := .stored }],
    staff := [] }

/-- A booking owned by customer 99, to be accessed by caller 10. -/
def foreignAction : Action :=
  { id := 1, user_id := 99, status := .pending_items, service_type := .pickup,
    pickup_item_ids := [], delivery_item_ids := [] }

/-- Database in which booking 1 belongs to customer 99. -/
def foreignDB : DB :=
  { actions := [foreignAction], items := [], staff := [] }

/-- C5: cancelling a booking that is already canceled returns the same ok
result as a first cancellation and leaves the whole database — in
particular every item status — untouched. -/
theorem sv_C5_cancel_idempotent (db : DB) (userId booking_id : Nat)
    (fail : CancelFailures) (booking : Action)
    (hfind : db.actions.find? (fun a => a.id == booking_id) = some booking)
    (hown : booking.user_id = userId)
    (hstat : booking.status = BStatus.canceled) :
    bookingCancel db userId booking_id fail = (CResp.ok, db) := by
  simp [bookingCancel, hfind, hown, hstat]

/-- C5 witness: the already-canceled database evaluates as the theorem
states. -/
theorem sv_C5_witness :
    canceledDB.actions.find? (fun a => a.id == 1) = some canceledBooking
      ∧ bookingCancel canceledDB 10 1 allWritesOk = (CResp.ok, canceledDB) :=
  ⟨by decide,
   sv_C5_cancel_idempotent canceledDB 10 1 allWritesOk canceledBooking
     (by decide) (by decide) (by decide)⟩

/-- Helper: a cancelable booking owned by the caller, with the final status
write succeeding, yields an ok response and a canceled booking row, for any
configuration of the two item-revert failure switches. -/
theorem cancelOkCanceled (db : DB) (userId booking_id : Nat)
    (fail : CancelFailures) (booking : Action)
    (hfind : db.actions.find? (fun a => a.id == booking_id) = some booking)
    (hown : booking.user_id = userId)
    (hmem : booking.status ∈ CUSTOMER_CANCELABLE_STATES)
    (hupd : fail.statusUpdateFails = false) :
    (bookingCancel db userId booking_id fail).1 = CResp.ok
      ∧ ∀ a ∈ (bookingCancel db userId booking_id fail).2.actions,
          a.id = booking_id → a.user_id = userId → a.status = BStatus.canceled := by
  have hne : booking.status ≠ BStatus.canceled := by
    have h2 := hmem
    simp only [CUSTOMER_CANCELABLE_STATES, List.mem_cons, List.not_mem_nil, or_false] at h2
    rcases h2 with h | h <;> simp [h]
  have key : (bookingCancel db userId booking_id fail).2.actions
      = db.actions.map (fun a =>
          if (a.id == booking_id) ∧ a.user_id = userId then
            { a with status := BStatus.canceled }
          else a) := by
    simp [bookingCancel, hfind, hown, hne, hmem, hupd]
  refine ⟨?_, ?_⟩
  · simp [bookingCancel, hfind, hown, hne, hmem, hupd]
  · intro a ha hid huid
    rw [key, List.mem_map] at ha
    obtain ⟨b, _, rfl⟩ := ha
    by_cases hc : (b.id == booking_id) ∧ b.user_id = userId
    · simp [hc]
    · rw [if_neg hc] at hid huid ⊢
      exact absurd ⟨by simp [hid], huid⟩ hc

/-- C10: when the booking is cancelable and the final status write succeeds,
the cancellation reports ok and the booking ends canceled no matter whether
the two item-revert writes failed — a revert failure never aborts the
cancellation. -/
theorem sv_C10_revert_failure_swallowed (db : DB) (userId booking_id : Nat)
    (fail : CancelFailures) (booking : Action)
    (hfind : db.actions.find? (fun a => a.id == booking_id) = some booking)
    (hown : booking.user_id = userId)
    (hstat : CUSTOMER_CANCELABLE_STATES.contains booking.status = true)
    (hupd : fail.statusUpdateFails = false) :
    (bookingCancel db userId booking_id fail).1 = CResp.ok
      ∧ ∀ a ∈ (bookingCancel db userId booking_id fail).2.actions,
          a.id = booking_id → a.user_id = userId → a.status = BStatus.canceled :=
  cancelOkCanceled db userId booking_id fail booking hfind hown (by simpa using hstat) hupd

/-- A pending booking owned by customer 10 with a selected pickup item 2 and
delivery item 3. -/
def pendingBooking : Action :=
  { id := 1, user_id := 10, status := .pending_confirmation,
    service_type := .pickup, pickup_item_ids := [2], delivery_item_ids := [3] }

/-- Database in which booking 1 is pending_confirmation with items 2 and 3
scheduled. -/
def pendingDB : DB :=
  { actions := [pendingBooking],
    items := [{ id := 2, user_id := 10, status := .scheduled },
              { id := 3, user_id := 10, status := .scheduled }],
    staff := [] }

/-- C10 witness: both item-revert writes failing on the pending booking still
yields an ok cancellation with the booking canceled. -/
theorem sv_C10_witness :
    (bookingCancel pendingDB 10 1
        { pickupRevertFails := true, deliveryRevertFails := true,
          statusUpdateFails := false }).1 = CResp.ok
      ∧ ∀ a ∈ (bookingCancel pendingDB 10 1
            { pickupRevertFails := true, deliveryRevertFails := true,
              statusUpdateFails := false }).2.actions,
          a.id = 1 → a.user_id = 10 → a.status = BStatus.canceled :=
  sv_C10_revert_failure_swallowed pendingDB 10 1
    { pickupRevertFails := true, deliveryRevertFails := true,
      statusUpdateFails := false }
    pendingBooking (by decide) (by decide) (by decide) (by decide)

/-- Unfolding membership in an item revert: every resulting item comes from
an original item with the same id and owner; it is set to the target status
when the update's filters match and is returned unchanged otherwise. -/
theorem revertItems_mem (items : List Item) (ids : List Nat) (userId : Nat)
    (st : IStatus) :
    ∀ i' ∈ revertItems items ids userId st, ∃ i, i ∈ items ∧ i'.id = i.id
      ∧ i'.user_id = i.user_id
      ∧ ((ids.contains i.id ∧ i.user_id = userId) → i'.status = st)
      ∧ (¬ (ids.contains i.id ∧ i.user_id = userId) → i' = i) := by
  intro i' h
  rw [revertItems, List.mem_map] at h
  obtain ⟨i, hi, rfl⟩ := h
  by_cases hc : (ids.contains i.id ∧ i.user_id = userId)
  · rw [if_pos hc]
    exact ⟨i, hi, rfl, rfl, fun _ => rfl, fun hn => absurd hc hn⟩
  · rw [if_neg hc]
    exact ⟨i, hi, rfl, rfl, fun hp => absurd hp hc, fun _ => rfl⟩

/-- Helper: when every original item carrying an id of the update's list is
owned by the caller, the revert leaves all those items at the target
status. -/
theorem revert_target (items : List Item) (ids : List Nat) (userId : Nat)
    (st : IStatus)
    (hown : ∀ i ∈ items, i.id ∈ ids → i.user_id = userId) :
    ∀ j ∈ revertItems items ids userId st, j.id ∈ ids → j.status = st := by
  intro j hj hmem
  obtain ⟨i, hi, hid, _, hset, _⟩ := revertItems_mem items ids userId st j hj
  have hmi : i.id ∈ ids := hid ▸ hmem
  exact hset ⟨by simpa using hmi, hown i hi hmi⟩

/-- Helper: a revert never changes an item's id or owner. -/
theorem revert_id_user (items : List Item) (ids : List Nat) (userId : Nat)
    (st : IStatus) :
    ∀ j ∈ revertItems items ids userId st,
      ∃ i, i ∈ items ∧ j.id = i.id ∧ j.user_id = i.user_id := by
  intro j hj
  obtain ⟨i, hi, hid, huid, _, _⟩ := revertItems_mem items ids userId st j hj
  exact ⟨i, hi, hid, huid⟩

/-- Helper: the item table produced by a successful customer cancellation is
the delivery revert applied after the pickup revert, each guarded by its
non-empty-list check. -/
theorem bookingCancel_items_eq (db : DB) (userId booking_id : Nat)
    (booking : Action)
    (hfind : db.actions.find? (fun a => a.id == booking_id) = some booking)
    (hown : booking.user_id = userId)
    (hmem : booking.status ∈ CUSTOMER_CANCELABLE_STATES)
    (hne : booking.status ≠ BStatus.canceled) :
    (bookingCancel db userId booking_id allWritesOk).2.items =
      (if 0 < booking.delivery_item_ids.length then
        revertItems
          (if 0 < booking.pickup_item_ids.length then
            revertItems db.items booking.pickup_item_ids userId .home
          else db.items)
          booking.delivery_item_ids userId .stored
      else
        (if 0 < booking.pickup_item_ids.length then
          revertItems db.items booking.pickup_item_ids userId .home
        else db.items)) := by
  simp [bookingCancel, hfind, hown, hne, hmem, allWritesOk]

/-- C6: a customer cancellation of an owned booking in a pending state (with
all store writes succeeding, every referenced item owned by the caller, and
the booking's two item lists disjoint) reports ok, reverts every pickup item
to home and every delivery item to stored, and sets the booking to canceled;
while for a booking in any other non-canceled state the call fails with the
conflict error and the database is unchanged. -/
theorem sv_C6_customer_cancel (db : DB) (userId booking_id : Nat)
    (booking : Action)
    (hfind : db.actions.find? (fun a => a.id == booking_id) = some booking)
    (hown : booking.user_id = userId) :
    ((booking.status = BStatus.pending_items
        ∨ booking.status = BStatus.pending_confirmation) →
      (∀ i ∈ db.items, i.id ∈ booking.pickup_item_ids → i.user_id = userId) →
      (∀ i ∈ db.items, i.id ∈ booking.delivery_item_ids → i.user_id = userId) →
      (∀ x ∈ booking.pickup_item_ids, x ∉ booking.delivery_item_ids) →
      (bookingCancel db userId booking_id allWritesOk).1 = CResp.ok
        ∧ (∀ i ∈ (bookingCancel db userId booking_id allWritesOk).2.items,
            i.id ∈ booking.pickup_item_ids → i.status = IStatus.home)
        ∧ (∀ i ∈ (bookingCancel db userId booking_id allWritesOk).2.items,
            i.id ∈ booking.delivery_item_ids → i.status = IStatus.stored)
        ∧ (∀ a ∈ (bookingCancel db userId booking_id allWritesOk).2.actions,
            a.id = booking_id → a.user_id = userId → a.status = BStatus.canceled))
      ∧ (booking.status ≠ BStatus.canceled →
         booking.status ≠ BStatus.pending_items →
         booking.status ≠ BStatus.pending_confirmation →
         bookingCancel db userId booking_id allWritesOk
           = (CResp.conflict booking.status, db)) := by
  constructor
  · intro hstat hpOwn hdOwn hdisj
    have hmem : booking.status ∈ CUSTOMER_CANCELABLE_STATES := by
      simp only [CUSTOMER_CANCELABLE_STATES, List.mem_cons, List.not_mem_nil, or_false]
      exact hstat
    have hne : booking.status ≠ BStatus.canceled := by
      rcases hstat with h | h <;> simp [h]
    obtain ⟨hok, hact⟩ := cancelOkCanceled db userId booking_id allWritesOk booking
      hfind hown hmem rfl
    have hitems := bookingCancel_items_eq db userId booking_id booking hfind hown hmem hne
    have hdOwn1 : ∀ j ∈ (if 0 < booking.pickup_item_ids.length then
          revertItems db.items booking.pickup_item_ids userId .home
        else db.items),
        j.id ∈ booking.delivery_item_ids → j.user_id = userId := by
      by_cases hp : 0 < booking.pickup_item_ids.length
      · rw [if_pos hp]
        intro j hj hjd
        obtain ⟨i, hi, hid, huid⟩ := revert_id_user db.items booking.pickup_item_ids
          userId .home j hj
        exact huid.trans (hdOwn i hi (hid ▸ hjd))
      · rw [if_neg hp]
        exact hdOwn
    refine ⟨hok, ?_, ?_, hact⟩
    · intro i' hi' hpin
      rw [hitems] at hi'
      have hinner : i' ∈ (if 0 < booking.pickup_item_ids.length then
            revertItems db.items booking.pickup_item_ids userId .home
          else db.items) := by
        by_cases hd : 0 < booking.delivery_item_ids.length
        · rw [if_pos hd] at hi'
          obtain ⟨j, hj, hid, _, _, hkeep⟩ := revertItems_mem _ _ _ _ i' hi'
          have hcnot : ¬ (booking.delivery_item_ids.contains j.id ∧ j.user_id = userId) := by
            rintro ⟨hc1, -⟩
            exact hdisj j.id (hid ▸ hpin) (by simpa using hc1)
          rw [hkeep hcnot]
          exact hj
        · rw [if_neg hd] at hi'
          exact hi'
      by_cases hp : 0 < booking.pickup_item_ids.length
      · rw [if_pos hp] at hinner
        exact revert_target db.items booking.pickup_item_ids userId .home hpOwn
          i' hinner hpin
      · exfalso
        rw [List.length_eq_zero.mp (Nat.eq_zero_of_not_pos hp)] at hpin
        exact List.not_mem_nil _ hpin
    · intro i' hi' hdin
      rw [hitems] at hi'
      by_cases hd : 0 < booking.delivery_item_ids.length
      · rw [if_pos hd] at hi'
        exact revert_target _ booking.delivery_item_ids userId .stored hdOwn1
          i' hi' hdin
      · exfalso
        rw [List.length_eq_zero.mp (Nat.eq_zero_of_not_pos hd)] at hdin
        exact List.not_mem_nil _ hdin
  · intro hne h1 h2
    have hnmem : ¬ booking.status ∈ CUSTOMER_CANCELABLE_STATES := by
      simp [CUSTOMER_CANCELABLE_STATES, h1, h2]
    simp [bookingCancel, hfind, hown, hne, hnmem]

/-- C6 witness: cancelling the pending booking of pendingDB reverts item 2 to
home, item 3 to stored, and cancels the booking. -/
theorem sv_C6_witness :
    (bookingCancel pendingDB 10 1 allWritesOk).1 = CResp.ok
      ∧ (∀ i ∈ (bookingCancel pendingDB 10 1 allWritesOk).2.items,
          i.id ∈ pendingBooking.pickup_item_ids → i.status = IStatus.home)
      ∧ (∀ i ∈ (bookingCancel pendingDB 10 1 allWritesOk).2.items,
          i.id ∈ pendingBooking.delivery_item_ids → i.status = IStatus.stored)
      ∧ (∀ a ∈ (bookingCancel pendingDB 10 1 allWritesOk).2.actions,
          a.id = 1 → a.user_id = 10 → a.status = BStatus.canceled) :=
  (sv_C6_customer_cancel pendingDB 10 1 pendingBooking (by decide) (by decide)).1
    (by decide) (by decide) (by decide) (by decide)

/-- C7 counterexample: the claim says an item-selection call against a
booking owned by another customer yields the same NotFound error as a
missing booking; on foreignDB (booking 1 owned by 99, caller 10) the handler
instead answers with the distinct Forbidden response carrying ownership
detail. -/
theorem sv_C7_counterexample :
    (updateBookingItems foreignDB 10 1 []).1 = UResp.forbidden
      ∧ UResp.forbidden ≠ UResp.notFound := by
  decide

/-- C7 amended: booking-cancel answers an ownership mismatch with exactly the
NotFound error it uses for a missing booking (no existence leak), while
update-booking-items answers an ownership mismatch with a 403 Forbidden
response carrying detail; neither call mutates the database. -/
theorem sv_C7_ownership_isolation (db : DB) (userId booking_id : Nat)
    (fail : CancelFailures) (selected_item_ids : List Nat) :
    (∀ booking : Action,
        db.actions.find? (fun a => a.id == booking_id) = some booking →
        booking.user_id ≠ userId →
        bookingCancel db userId booking_id fail = (CResp.notFound, db)
          ∧ updateBookingItems db userId booking_id selected_item_ids
              = (UResp.forbidden, db))
      ∧ (db.actions.find? (fun a => a.id == booking_id) = none →
          bookingCancel db userId booking_id fail = (CResp.notFound, db)
            ∧ updateBookingItems db userId booking_id selected_item_ids
                = (UResp.notFound, db)) := by
  constructor
  · intro booking hfind hneq
    constructor
    · simp [bookingCancel, hfind, hneq]
    · simp [updateBookingItems, hfind, hneq]
  · intro hnone
    constructor
    · simp [bookingCancel, hnone]
    · simp [updateBookingItems, hnone]

/-- C7 witness: on foreignDB the cancel call answers NotFound and the
item-selection call answers Forbidden, both leaving the database unchanged. -/
theorem sv_C7_witness :
    bookingCancel foreignDB 10 1 allWritesOk = (CResp.notFound, foreignDB)
      ∧ updateBookingItems foreignDB 10 1 [] = (UResp.forbidden, foreignDB) :=
  (sv_C7_ownership_isolation foreignDB 10 1 allWritesOk []).1 foreignAction
    (by decide) (by decide)

/-- The two statuses complete-service accepts for completion (its
completableStatuses list, also the status filter of the conditional
update). -/
def completableStatuses : List BStatus := [.confirmed, .pending_confirmation]

/-- Responses of the complete-service handler (after authentication):
ok carries the items_updated count; alreadyCompleted stands for the 200
body with ok true and already_completed true. -/
inductive CompResp : Type
  | forbidden
  | notFound
  | invalidState (s : BStatus)
  | alreadyCompleted
  | ok (items_updated : Nat)
  | upstreamFailure
deriving DecidableEq, Repr

/-- Failure switch for the item-status update step of complete-service. -/
structure CompleteFailures : Type where
  itemUpdateFails : Bool
deriving DecidableEq, Repr

/-- Outcome of a complete-service call: the response, the resulting store,
and whether the completion notification was triggered. -/
structure CompleteResult : Type where
  resp : CompResp
  db : DB
  emailSent : Bool
deriving DecidableEq, Repr

/-- The conditional completion update of complete-service: update the action
to completed filtered by both the id and the status still being in
completableStatuses; none models the zero-rows outcome of the
compare-and-set. -/
def completeCAS (actions : List Action) (action_id : Nat) :
    Option (List Action) :=
  if actions.any (fun a => a.id == action_id
      && completableStatuses.contains a.status) then
    some (actions.map (fun b =>
      if b.id == action_id && completableStatuses.contains b.status then
        { b with status := BStatus.completed }
      else b))
  else none

/-- The tail of the complete-service handler, run after the pre-read status
gate passed on the snapshot of the action: update item statuses by service
type (failing closed when that write fails), then perform the conditional
completion update against the current store.  A zero-rows outcome of the
conditional update is answered as idempotent success with no notification; a
successful completion triggers exactly one notification.  The store argument
may have changed since the snapshot was read, which is exactly the
concurrent double-completion situation. -/
def completeFinish (snapshot : Action) (db : DB) (action_id : Nat)
    (fail : CompleteFailures) : CompleteResult :=
  if fail.itemUpdateFails then ⟨.upstreamFailure, db, false⟩
  else
    let items1 :=
      if snapshot.service_type = .pickup ∧ 0 < snapshot.pickup_item_ids.length then
        setItemsStatus db.items snapshot.pickup_item_ids .stored
      else db.items
    let items2 :=
      if snapshot.service_type = .delivery ∧ 0 < snapshot.delivery_item_ids.length then
        setItemsStatus items1 snapshot.delivery_item_ids .home
      else items1
    let db1 := { db with items := items2 }
    match completeCAS db1.actions action_id with
    | none => ⟨.alreadyCompleted, db1, false⟩
    | some actions2 =>
      let itemsUpdated :=
        if snapshot.service_type = .pickup then snapshot.pickup_item_ids.length
        else snapshot.delivery_item_ids.length
      ⟨.ok itemsUpdated, { db1 with actions := actions2 }, true⟩

/-- The complete-service handler: staff check, fetch the action, gate on a
completable status, then run the completion tail against the same store. -/
def completeService (db : DB) (callerId action_id : Nat)
    (fail : CompleteFailures) : CompleteResult :=
  if ¬ db.staff.contains callerId then ⟨.forbidden, db, false⟩
  else
    match db.actions.find? (fun a => a.id == action_id) with
    | none => ⟨.notFound, db, false⟩
    | some action =>
      if ¬ completableStatuses.contains action.status then
        ⟨.invalidState action.status, db, false⟩
      else completeFinish action db action_id fail

/-- One completion attempt at the conditional-update step: the
compare-and-set and, on success, the notification.  This models a Complete
call that already passed the pre-read status gate on a stale snapshot, as
happens to each participant of a concurrent double-completion. -/
def completeAttemptStep (db : DB) (action_id : Nat) : DB × Bool :=
  match completeCAS db.actions action_id with
  | none => (db, false)
  | some actions2 => ({ db with actions := actions2 }, true)

/-- Run n completion attempts back to back (the serialization of n racing
Complete calls at the store's atomic conditional update) and count how many
triggered the notification. -/
def runCompleteAttempts (action_id : Nat) : Nat → DB → DB × Nat
  | 0, db => (db, 0)
  | n + 1, db =>
    let s := completeAttemptStep db action_id
    let r := runCompleteAttempts action_id n s.1
    (r.1, (if s.2 then 1 else 0) + r.2)

/-- Helper: after a successful conditional completion, no row with the
action's id is left in a completable status. -/
theorem completeCAS_clears (actions actions2 : List Action) (action_id : Nat)
    (h : completeCAS actions action_id = some actions2) :
    actions2.any (fun a => a.id == action_id
      && completableStatuses.contains a.status) = false := by
  rw [completeCAS] at h
  split_ifs at h with hany
  · obtain rfl : _ = actions2 := Option.some.inj h
    rw [List.any_map, List.any_eq_false]
    intro a _
    simp only [Function.comp_apply]
    by_cases hc : ((a.id == action_id) && completableStatuses.contains a.status) = true
    · rw [if_pos hc]
      simp [completableStatuses]
    · rw [if_neg hc]
      simpa using hc

/-- Helper: a completion attempt against a store holding no completable row
for the action leaves the store unchanged and triggers nothing. -/
theorem attemptStep_of_cleared (db : DB) (action_id : Nat)
    (h : db.actions.any (fun a => a.id == action_id
      && completableStatuses.contains a.status) = false) :
    completeAttemptStep db action_id = (db, false) := by
  unfold completeAttemptStep completeCAS
  rw [h]
  rfl

/-- Helper: once no completable row remains, any further sequence of
completion attempts triggers zero notifications. -/
theorem runCompleteAttempts_cleared (action_id : Nat) :
    ∀ (n : Nat) (db : DB),
      db.actions.any (fun a => a.id == action_id
        && completableStatuses.contains a.status) = false →
      runCompleteAttempts action_id n db = (db, 0) := by
  intro n
  induction n with
  | zero => intro db _; rfl
  | succ n ih =>
    intro db h
    simp only [runCompleteAttempts, attemptStep_of_cleared db action_id h]
    rw [ih db h]
    simp

/-- Helper: any sequence of completion attempts triggers at most one
notification. -/
theorem runCompleteAttempts_le_one (action_id : Nat) :
    ∀ (n : Nat) (db : DB), (runCompleteAttempts action_id n db).2 ≤ 1 := by
  intro n
  induction n with
  | zero => intro db; simp [runCompleteAttempts]
  | succ n ih =>
    intro db
    simp only [runCompleteAttempts]
    cases hcas : completeCAS db.actions action_id with
    | none =>
      simp only [completeAttemptStep, hcas]
      simpa using ih db
    | some actions2 =>
      simp only [completeAttemptStep, hcas]
      have hclear : ({ db with actions := actions2 } : DB).actions.any
          (fun a => a.id == action_id
            && completableStatuses.contains a.status) = false :=
        completeCAS_clears db.actions actions2 action_id hcas
      rw [runCompleteAttempts_cleared action_id n _ hclear]
      simp

/-- Helper: the completion tail triggers a notification exactly when it
answers the ok response. -/
theorem completeFinish_email_iff (snapshot : Action) (db : DB)
    (action_id : Nat) (fail : CompleteFailures) :
    (completeFinish snapshot db action_id fail).emailSent = true ↔
      ∃ k, (completeFinish snapshot db action_id fail).resp = CompResp.ok k := by
  rw [completeFinish]
  split
  · simp
  · cases hcas : completeCAS db.actions action_id with
    | none => simp [hcas]
    | some actions2 => simp [hcas]

/-- A confirmed pickup booking owned by customer 10 with item 2 selected. -/
def confirmedBooking : Action :=
  { id := 1, user_id := 10, status := .confirmed, service_type := .pickup,
    pickup_item_ids := [2], delivery_item_ids := [] }

/-- Database with the confirmed booking, its scheduled item, and staff
member 7. -/
def confirmedDB : DB :=
  { actions := [confirmedBooking],
    items := [{ id := 2, user_id := 10, status := .scheduled }],
    staff := [7] }

/-- C3: the completion update of complete-service is a compare-and-set — it
succeeds exactly when some row with the action's id still has a status in
{confirmed, pending_confirmation}; whenever it matches zero rows the call
answers the idempotent already-completed success and sends no notification,
a notification is sent exactly on the ok response, any serialization of
completion attempts triggers at most one notification, and in the concrete
two-caller race on a confirmed booking the first caller completes and
notifies while the second observes already_completed with no
notification. -/
theorem sv_C3_completion_race (db : DB) (callerId action_id : Nat)
    (fail : CompleteFailures) (snapshot : Action) (n : Nat) :
    ((completeCAS db.actions action_id).isSome =
        db.actions.any (fun a => a.id == action_id
          && completableStatuses.contains a.status))
      ∧ ((completeFinish snapshot db action_id fail).resp
            = CompResp.alreadyCompleted →
          (completeFinish snapshot db action_id fail).emailSent = false)
      ∧ ((completeService db callerId action_id fail).emailSent = true ↔
          ∃ k, (completeService db callerId action_id fail).resp = CompResp.ok k)
      ∧ (runCompleteAttempts action_id n db).2 ≤ 1
      ∧ ((completeService confirmedDB 7 1 { itemUpdateFails := false }).resp
            = CompResp.ok 1
          ∧ (completeService confirmedDB 7 1 { itemUpdateFails := false }).emailSent
              = true
          ∧ (completeFinish confirmedBooking
                (completeService confirmedDB 7 1 { itemUpdateFails := false }).db
                1 { itemUpdateFails := false }).resp = CompResp.alreadyCompleted
          ∧ (completeFinish confirmedBooking
                (completeService confirmedDB 7 1 { itemUpdateFails := false }).db
                1 { itemUpdateFails := false }).emailSent = false) := by
  refine ⟨?_, ?_, ?_, runCompleteAttempts_le_one action_id n db, by decide⟩
  · rw [completeCAS]
    by_cases h : db.actions.any (fun a => a.id == action_id
        && completableStatuses.contains a.status) = true
    · rw [if_pos h, h]
      rfl
    · rw [if_neg h]
      simp only [Bool.not_eq_true] at h
      rw [h]
      rfl
  · intro h
    cases hmail : (completeFinish snapshot db action_id fail).emailSent with
    | false => rfl
    | true =>
      obtain ⟨k, hk⟩ := (completeFinish_email_iff snapshot db action_id fail).mp hmail
      rw [h] at hk
      exact absurd hk (by simp)
  · rw [completeService]
    split
    · simp
    · split
      · simp
      · split
        · simp
        · exact completeFinish_email_iff _ db action_id fail

/-- C3 witness: the theorem instantiated on the confirmed-booking database
with three racing attempts. -/
theorem sv_C3_witness :
    (runCompleteAttempts 1 3 confirmedDB).2 ≤ 1
      ∧ ((completeCAS confirmedDB.actions 1).isSome =
          confirmedDB.actions.any (fun a => a.id == 1
            && completableStatuses.contains a.status)) :=
  ⟨(sv_C3_completion_race confirmedDB 7 1 { itemUpdateFails := false }
      confirmedBooking 3).2.2.2.1,
   (sv_C3_completion_race confirmedDB 7 1 { itemUpdateFails := false }
      confirmedBooking 3).1⟩

/-- Payment-webhook state: the processed-event ledger and, as an abstraction
of the handlers' business writes, the log of event ids whose processing
ran. -/
structure StripeState : Type where
  processed_events : List String
  mutations : List String
deriving DecidableEq, Repr

/-- Payment-webhook response: HTTP status plus the ok and duplicate flags of
the JSON body. -/
structure StripeResp : Type where
  status : Nat
  ok : Bool
  duplicate : Bool
deriving DecidableEq, Repr

/-- The stripe-webhook handler after signature verification: check the
ledger first and, when the event id is already recorded, skip all processing
and answer ok with duplicate true; otherwise run the business logic (a
thrown processing error aborts with 500 before any ledger write) and record
the event id in the ledger only afterwards. -/
def stripeWebhook (st : StripeState) (eventId : String)
    (processingFails : Bool) : StripeResp × StripeState :=
  if st.processed_events.contains eventId then
    ({ status := 200, ok := true, duplicate := true }, st)
  else if processingFails then
    ({ status := 500, ok := false, duplicate := false }, st)
  else
    let st1 := { st with mutations := st.mutations ++ [eventId] }
    let st2 := { st1 with processed_events := st1.processed_events ++ [eventId] }
    ({ status := 200, ok := true, duplicate := false }, st2)

/-- C4: the ledger is checked before processing — a recorded event id skips
all processing, mutating nothing, and answers duplicate true; the ledger
record is written only after the business logic succeeds (a failed run
records nothing); and delivering a fresh event twice runs the business logic
exactly once, with the second delivery answering duplicate true and leaving
the state untouched. -/
theorem sv_C4_idempotent_payment (st : StripeState) (eventId : String)
    (processingFails : Bool)
    (hfresh : eventId ∉ st.processed_events)
    (hclean : eventId ∉ st.mutations) :
    (eventId ∈ st.processed_events →
        stripeWebhook st eventId processingFails
          = ({ status := 200, ok := true, duplicate := true }, st))
      ∧ (stripeWebhook st eventId true = ({ status := 500, ok := false, duplicate := false }, st))
      ∧ ((stripeWebhook st eventId false).1.duplicate = false)
      ∧ (((stripeWebhook (stripeWebhook st eventId false).2 eventId false).2).mutations.count
            eventId = 1)
      ∧ ((stripeWebhook (stripeWebhook st eventId false).2 eventId false).1
          = { status := 200, ok := true, duplicate := true })
      ∧ ((stripeWebhook (stripeWebhook st eventId false).2 eventId false).2
          = (stripeWebhook st eventId false).2) := by
  have hc : st.processed_events.contains eventId = false := by
    simpa using hfresh
  have hfirst : stripeWebhook st eventId false
      = ({ status := 200, ok := true, duplicate := false },
         { processed_events := st.processed_events ++ [eventId],
           mutations := st.mutations ++ [eventId] }) := by
    unfold stripeWebhook
    rw [hc]
    rfl
  have hsecond : stripeWebhook (stripeWebhook st eventId false).2 eventId false
      = ({ status := 200, ok := true, duplicate := true },
         (stripeWebhook st eventId false).2) := by
    rw [hfirst]
    unfold stripeWebhook
    simp
  refine ⟨fun hmem => absurd hmem hfresh, ?_, ?_, ?_, ?_, ?_⟩
  · unfold stripeWebhook
    rw [hc]
    rfl
  · rw [hfirst]
  · rw [hsecond, hfirst]
    simp [List.count_append, List.count_eq_zero]
    simpa using hclean
  · rw [hsecond]
  · rw [hsecond]

/-- C4 witness: a fresh event id delivered twice to an empty ledger. -/
theorem sv_C4_witness :
    ("evt_1" ∉ (⟨[], []⟩ : StripeState).processed_events)
      ∧ (stripeWebhook (stripeWebhook ⟨[], []⟩ "evt_1" false).2 "evt_1" false).1
          = { status := 200, ok := true, duplicate := true } :=
  ⟨by decide,
   (sv_C4_idempotent_payment ⟨[], []⟩ "evt_1" false (by decide) (by decide)).2.2.2.2.1⟩

/-- The direction the partition loop of update-booking-items assigns to one
candidate item: pickup for home, delivery for stored, the previously
recorded direction for scheduled, none otherwise. -/
def itemDir (prevPickupIds prevDeliveryIds : List Nat) (i : Item) : Option SType :=
  if i.status = .home then some SType.pickup
  else if i.status = .stored then some SType.delivery
  else if i.status = .scheduled then
    if prevPickupIds.contains i.id then some SType.pickup
    else if prevDeliveryIds.contains i.id then some SType.delivery
    else none
  else none

/-- Helper: one partition step appends the item's id to the list named by its
direction. -/
theorem partitionStep_eq (pP pD : List Nat) (acc : List Nat × List Nat) (i : Item) :
    partitionStep pP pD acc i =
      match itemDir pP pD i with
      | some .pickup => (acc.1 ++ [i.id], acc.2)
      | some .delivery => (acc.1, acc.2 ++ [i.id])
      | none => acc := by
  rw [partitionStep, itemDir]
  split_ifs <;> rfl

/-- Helper: membership in the two partition outputs, relative to an arbitrary
accumulator. -/
theorem partition_mem (pP pD : List Nat) :
    ∀ (items : List Item) (acc : List Nat × List Nat) (x : Nat),
      (x ∈ (items.foldl (partitionStep pP pD) acc).1 ↔
        x ∈ acc.1 ∨ ∃ i ∈ items, i.id = x ∧ itemDir pP pD i = some SType.pickup)
      ∧ (x ∈ (items.foldl (partitionStep pP pD) acc).2 ↔
        x ∈ acc.2 ∨ ∃ i ∈ items, i.id = x ∧ itemDir pP pD i = some SType.delivery) := by
  intro items
  induction items with
  | nil => intro acc x; simp
  | cons i items ih =>
    intro acc x
    rw [List.foldl_cons, partitionStep_eq]
    cases hdir : itemDir pP pD i with
    | none =>
      constructor
      · rw [(ih acc x).1]
        simp [hdir]
      · rw [(ih acc x).2]
        simp [hdir]
    | some s =>
      cases s with
      | pickup =>
        constructor
        · rw [(ih (acc.1 ++ [i.id], acc.2) x).1]
          simp only [List.mem_append, List.mem_cons, List.not_mem_nil, or_false, hdir]
          constructor
          · rintro ((h | h) | h)
            · exact Or.inl h
            · exact Or.inr ⟨i, Or.inl rfl, h.symm, hdir⟩
            · obtain ⟨j, hj, hjx, hdj⟩ := h
              exact Or.inr ⟨j, Or.inr hj, hjx, hdj⟩
          · rintro (h | ⟨j, (rfl | hj), hjx, hdj⟩)
            · exact Or.inl (Or.inl h)
            · exact Or.inl (Or.inr hjx.symm)
            · exact Or.inr ⟨j, hj, hjx, hdj⟩
        · rw [(ih (acc.1 ++ [i.id], acc.2) x).2]
          simp only [List.mem_cons, hdir]
          constructor
          · rintro (h | ⟨j, hj, hjx, hdj⟩)
            · exact Or.inl h
            · exact Or.inr ⟨j, Or.inr hj, hjx, hdj⟩
          · rintro (h | ⟨j, (rfl | hj), hjx, hdj⟩)
            · exact Or.inl h
            · exact absurd (hdir.symm.trans hdj) (by simp)
            · exact Or.inr ⟨j, hj, hjx, hdj⟩
      | delivery =>
        constructor
        · rw [(ih (acc.1, acc.2 ++ [i.id]) x).1]
          simp only [List.mem_cons, hdir]
          constructor
          · rintro (h | ⟨j, hj, hjx, hdj⟩)
            · exact Or.inl h
            · exact Or.inr ⟨j, Or.inr hj, hjx, hdj⟩
          · rintro (h | ⟨j, (rfl | hj), hjx, hdj⟩)
            · exact Or.inl h
            · exact absurd (hdir.symm.trans hdj) (by simp)
            · exact Or.inr ⟨j, hj, hjx, hdj⟩
        · rw [(ih (acc.1, acc.2 ++ [i.id]) x).2]
          simp only [List.mem_append, List.mem_cons, List.not_mem_nil, or_false, hdir]
          constructor
          · rintro ((h | h) | h)
            · exact Or.inl h
            · exact Or.inr ⟨i, Or.inl rfl, h.symm, hdir⟩
            · obtain ⟨j, hj, hjx, hdj⟩ := h
              exact Or.inr ⟨j, Or.inr hj, hjx, hdj⟩
          · rintro (h | ⟨j, (rfl | hj), hjx, hdj⟩)
            · exact Or.inl (Or.inl h)
            · exact Or.inl (Or.inr hjx.symm)
            · exact Or.inr ⟨j, hj, hjx, hdj⟩

/-- Helper: with pairwise-distinct item ids, the two outputs of the v1.1
partitioner are disjoint. -/
theorem partition_disjoint (pP pD : List Nat) (items : List Item)
    (h : (items.map Item.id).Nodup) :
    ∀ x ∈ (partitionItems pP pD items).1, x ∉ (partitionItems pP pD items).2 := by
  intro x hx1 hx2
  rw [partitionItems] at hx1 hx2
  have h1 := ((partition_mem pP pD items ([], []) x).1).mp hx1
  have h2 := ((partition_mem pP pD items ([], []) x).2).mp hx2
  simp only [List.not_mem_nil, false_or] at h1 h2
  obtain ⟨i, hi, hix, hdi⟩ := h1
  obtain ⟨j, hj, hjx, hdj⟩ := h2
  have hij : i = j := List.inj_on_of_nodup_map h hi hj (by rw [hix, hjx])
  rw [hij] at hdi
  exact absurd (hdi.symm.trans hdj) (by simp)

/-- Helper: the v1.0 partition step is the v1.1 step with empty previous
lists. -/
theorem partitionStepV1_eq (acc : List Nat × List Nat) (i : Item) :
    partitionStepV1 acc i = partitionStep [] [] acc i := by
  rw [partitionStepV1, partitionStep]
  cases hs : i.status <;> simp

/-- Helper: the v1.0 partitioner is the v1.1 partitioner with empty previous
lists. -/
theorem partitionItemsV1_eq (items : List Item) :
    partitionItemsV1 items = partitionItems [] [] items := by
  rw [partitionItemsV1, partitionItems]
  congr 1
  funext acc i
  exact partitionStepV1_eq acc i

/-- Helper: against empty previous lists the direction function reads
pickup for home, delivery for stored, nothing otherwise. -/
theorem itemDir_nil (i : Item) :
    itemDir [] [] i =
      (if i.status = .home then some SType.pickup
       else if i.status = .stored then some SType.delivery else none) := by
  cases hs : i.status <;> simp [itemDir, hs]

/-- Helper: every id in the v1.0 pickup output names a selected item whose
status was home. -/
theorem partitionItemsV1_pickup (items : List Item) :
    ∀ x ∈ (partitionItemsV1 items).1,
      ∃ i ∈ items, i.id = x ∧ i.status = IStatus.home := by
  intro x hx
  rw [partitionItemsV1_eq, partitionItems] at hx
  have h := ((partition_mem [] [] items ([], []) x).1).mp hx
  simp only [List.not_mem_nil, false_or] at h
  obtain ⟨i, hi, hix, hdi⟩ := h
  rw [itemDir_nil] at hdi
  by_cases h1 : i.status = IStatus.home
  · exact ⟨i, hi, hix, h1⟩
  · rw [if_neg h1] at hdi
    by_cases h2 : i.status = IStatus.stored
    · rw [if_pos h2] at hdi
      exact absurd (Option.some.inj hdi) (by simp)
    · rw [if_neg h2] at hdi
      exact absurd hdi (by simp)

/-- Helper: every id in the v1.0 delivery output names a selected item whose
status was stored. -/
theorem partitionItemsV1_delivery (items : List Item) :
    ∀ x ∈ (partitionItemsV1 items).2,
      ∃ i ∈ items, i.id = x ∧ i.status = IStatus.stored := by
  intro x hx
  rw [partitionItemsV1_eq, partitionItems] at hx
  have h := ((partition_mem [] [] items ([], []) x).2).mp hx
  simp only [List.not_mem_nil, false_or] at h
  obtain ⟨i, hi, hix, hdi⟩ := h
  rw [itemDir_nil] at hdi
  by_cases h1 : i.status = IStatus.home
  · rw [if_pos h1] at hdi
    exact absurd (Option.some.inj hdi) (by simp)
  · rw [if_neg h1] at hdi
    by_cases h2 : i.status = IStatus.stored
    · rw [if_pos h2] at hdi
      exact ⟨i, hi, hix, h2⟩
    · rw [if_neg h2] at hdi
      exact absurd hdi (by simp)

/-- Helper: item selection preserves pairwise-disjoint item lists on every
booking, because the pair it writes back is a partition output. -/
theorem updateBookingItems_preserves (db : DB) (userId bid : Nat)
    (sel : List Nat)
    (hnod : (db.items.map Item.id).Nodup)
    (hinv : ∀ a ∈ db.actions, ∀ x ∈ a.pickup_item_ids, x ∉ a.delivery_item_ids) :
    ∀ a ∈ (updateBookingItems db userId bid sel).2.actions,
      ∀ x ∈ a.pickup_item_ids, x ∉ a.delivery_item_ids := by
  have hfilter : ((db.items.filter (fun i => sel.contains i.id)).map Item.id).Nodup :=
    hnod.sublist (List.Sublist.map Item.id (List.filter_sublist db.items))
  intro a ha
  unfold updateBookingItems at ha
  split at ha
  · exact hinv a ha
  · rename_i action heq
    simp only [ite_self] at ha
    by_cases h1 : action.user_id ≠ userId
    · rw [if_pos h1] at ha
      exact hinv a ha
    · rw [if_neg h1] at ha
      by_cases h2 : ¬ (action.status = BStatus.pending_items
          ∨ action.status = BStatus.pending_confirmation)
      · rw [if_pos h2] at ha
        exact hinv a ha
      · rw [if_neg h2] at ha
        by_cases h3 : (action.status ≠ BStatus.pending_confirmation
            ∧ isValidTransition action.status BStatus.pending_confirmation = false)
        · rw [if_pos h3] at ha
          exact hinv a ha
        · rw [if_neg h3] at ha
          simp only [List.mem_map] at ha
          obtain ⟨b, hb, rfl⟩ := ha
          by_cases hcid : (b.id == bid) = true
          · rw [if_pos hcid]
            exact partition_disjoint action.pickup_item_ids action.delivery_item_ids _ hfilter
          · rw [if_neg hcid]
            exact hinv b hb

/-- Helper: customer cancellation preserves pairwise-disjoint item lists on
every booking (it only rewrites statuses). -/
theorem bookingCancel_preserves (db : DB) (userId bid : Nat)
    (cfail : CancelFailures)
    (hinv : ∀ a ∈ db.actions, ∀ x ∈ a.pickup_item_ids, x ∉ a.delivery_item_ids) :
    ∀ a ∈ (bookingCancel db userId bid cfail).2.actions,
      ∀ x ∈ a.pickup_item_ids, x ∉ a.delivery_item_ids := by
  intro a ha
  unfold bookingCancel at ha
  split at ha
  · exact hinv a ha
  · rename_i booking heq
    by_cases h1 : booking.user_id ≠ userId
    · rw [if_pos h1] at ha
      exact hinv a ha
    · rw [if_neg h1] at ha
      by_cases h2 : booking.status = BStatus.canceled
      · rw [if_pos h2] at ha
        exact hinv a ha
      · rw [if_neg h2] at ha
        by_cases h3 : ¬ CUSTOMER_CANCELABLE_STATES.contains booking.status
        · rw [if_pos h3] at ha
          exact hinv a ha
        · rw [if_neg h3] at ha
          simp only [] at ha
          split at ha
          · exact hinv a ha
          · simp only [List.mem_map] at ha
            obtain ⟨b, hb, rfl⟩ := ha
            by_cases hc : ((b.id == bid) ∧ b.user_id = userId)
            · rw [if_pos hc]
              exact hinv b hb
            · rw [if_neg hc]
              exact hinv b hb

/-- Helper: a successful conditional completion only rewrites statuses — the
item lists of every row are preserved. -/
theorem completeCAS_lists (actions actions2 : List Action) (action_id : Nat)
    (h : completeCAS actions action_id = some actions2) :
    ∀ a ∈ actions2, ∃ b ∈ actions,
      a.pickup_item_ids = b.pickup_item_ids
        ∧ a.delivery_item_ids = b.delivery_item_ids := by
  rw [completeCAS] at h
  split_ifs at h
  obtain rfl : _ = actions2 := Option.some.inj h
  intro a ha
  simp only [List.mem_map] at ha
  obtain ⟨b, hb, rfl⟩ := ha
  by_cases hc : ((b.id == action_id) && completableStatuses.contains b.status) = true
  · rw [if_pos hc]
    exact ⟨b, hb, rfl, rfl⟩
  · rw [if_neg hc]
    exact ⟨b, hb, rfl, rfl⟩

/-- Helper: completion preserves pairwise-disjoint item lists on every
booking. -/
theorem completeService_preserves (db : DB) (callerId aid : Nat)
    (cf : CompleteFailures)
    (hinv : ∀ a ∈ db.actions, ∀ x ∈ a.pickup_item_ids, x ∉ a.delivery_item_ids) :
    ∀ a ∈ (completeService db callerId aid cf).db.actions,
      ∀ x ∈ a.pickup_item_ids, x ∉ a.delivery_item_ids := by
  intro a ha
  unfold completeService completeFinish at ha
  split at ha
  · exact hinv a ha
  · split at ha
    · exact hinv a ha
    · split at ha
      · exact hinv a ha
      · split at ha
        · exact hinv a ha
        · simp only [] at ha
          cases hcas : completeCAS db.actions aid with
          | none =>
            simp only [hcas] at ha
            exact hinv a ha
          | some actions2 =>
            simp only [hcas] at ha
            obtain ⟨b, hb, hp, hd⟩ := completeCAS_lists db.actions actions2 aid hcas a ha
            rw [hp, hd]
            exact hinv b hb

/-- C9: the partitioner assigns each candidate item to at most one of the two
sets — under the v1.0 rules pickup exactly when its status is home and
delivery exactly when stored — so with pairwise-distinct item ids its two
outputs are disjoint (for both partitioner revisions), and each of the three
booking operations preserves the invariant that every booking's
pickup_item_ids and delivery_item_ids are disjoint. -/
theorem sv_C9_disjoint_invariant (db : DB) (userId bid callerId : Nat)
    (sel : List Nat) (cfail : CancelFailures) (cf : CompleteFailures)
    (items : List Item) (pP pD : List Nat)
    (hnodI : (items.map Item.id).Nodup)
    (hnod : (db.items.map Item.id).Nodup)
    (hinv : ∀ a ∈ db.actions, ∀ x ∈ a.pickup_item_ids, x ∉ a.delivery_item_ids) :
    ((∀ x ∈ (partitionItemsV1 items).1,
        ∃ i ∈ items, i.id = x ∧ i.status = IStatus.home)
      ∧ (∀ x ∈ (partitionItemsV1 items).2,
          ∃ i ∈ items, i.id = x ∧ i.status = IStatus.stored)
      ∧ (∀ x ∈ (partitionItemsV1 items).1, x ∉ (partitionItemsV1 items).2))
    ∧ (∀ x ∈ (partitionItems pP pD items).1, x ∉ (partitionItems pP pD items).2)
    ∧ (∀ a ∈ (updateBookingItems db userId bid sel).2.actions,
        ∀ x ∈ a.pickup_item_ids, x ∉ a.delivery_item_ids)
    ∧ (∀ a ∈ (bookingCancel db userId bid cfail).2.actions,
        ∀ x ∈ a.pickup_item_ids, x ∉ a.delivery_item_ids)
    ∧ (∀ a ∈ (completeService db callerId bid cf).db.actions,
        ∀ x ∈ a.pickup_item_ids, x ∉ a.delivery_item_ids) :=
  ⟨⟨partitionItemsV1_pickup items, partitionItemsV1_delivery items,
    by rw [partitionItemsV1_eq]; exact partition_disjoint [] [] items hnodI⟩,
   partition_disjoint pP pD items hnodI,
   updateBookingItems_preserves db userId bid sel hnod hinv,
   bookingCancel_preserves db userId bid cfail hinv,
   completeService_preserves db callerId bid cf hinv⟩

/-- C9 witness: the theorem instantiated on the section 8 example
database. -/
theorem sv_C9_witness :
    ((exampleDB.items.map Item.id).Nodup)
      ∧ (∀ x ∈ (partitionItemsV1 exampleDB.items).1,
          x ∉ (partitionItemsV1 exampleDB.items).2)
      ∧ (∀ a ∈ (updateBookingItems exampleDB 10 1 [2, 3]).2.actions,
          ∀ x ∈ a.pickup_item_ids, x ∉ a.delivery_item_ids) :=
  ⟨by decide,
   (sv_C9_disjoint_invariant exampleDB 10 1 7 [2, 3] allWritesOk
      { itemUpdateFails := false } exampleDB.items [] []
      (by decide) (by decide) (by decide)).1.2.2,
   (sv_C9_disjoint_invariant exampleDB 10 1 7 [2, 3] allWritesOk
      { itemUpdateFails := false } exampleDB.items [] []
      (by decide) (by decide) (by decide)).2.2.1⟩

/-- The clock-skew bound of calendly-webhook, in seconds. -/
def MAX_CLOCK_SKEW_SECONDS : Nat := 5 * 60

/-- Whitespace recognizer for header trimming (the signature headers carry
only spaces and tabs). -/
def isSpaceChar (c : Char) : Bool := c = ' ' ∨ c = '\t'

/-- Trim whitespace from both ends of a character list. -/
def trimChars (s : List Char) : List Char :=
  ((s.dropWhile isSpaceChar).reverse.dropWhile isSpaceChar).reverse

/-- Splitting worker: cur holds the reversed current chunk. -/
def splitOnCharAux (c : Char) : List Char → List Char → List (List Char)
  | [], cur => [cur.reverse]
  | ch :: rest, cur =>
    if ch = c then cur.reverse :: splitOnCharAux c rest []
    else splitOnCharAux c rest (ch :: cur)

/-- Split a character list on a separator character (the shape of the
JavaScript string split). -/
def splitOnChar (c : Char) (s : List Char) : List (List Char) :=
  splitOnCharAux c s []

/-- Rejoin character chunks with a separator (the shape of the JavaScript
array join). -/
def intercalateChar (c : Char) : List (List Char) → List Char
  | [] => []
  | [x] => x
  | x :: rest => x ++ c :: intercalateChar c rest

/-- Value of a decimal digit character, none for a non-digit. -/
def digitVal (ch : Char) : Option Nat :=
  if '0' ≤ ch ∧ ch ≤ '9' then some (ch.toNat - Char.toNat '0') else none

/-- Decimal parsing worker. -/
def parseNatCharsAux : List Char → Nat → Option Nat
  | [], acc => some acc
  | ch :: rest, acc =>
    match digitVal ch with
    | none => none
    | some d => parseNatCharsAux rest (acc * 10 + d)

/-- Parse a non-empty decimal numeral, none otherwise. -/
def parseNatChars (s : List Char) : Option Nat :=
  match s with
  | [] => none
  | _ => parseNatCharsAux s 0

/-- Parse an optionally-signed integer numeral — the shape of the
JavaScript Number conversion on the integral timestamps the provider sends
(anything non-numeric becomes none, as NaN fails the finiteness check). -/
def parseIntChars (s : List Char) : Option Int :=
  match s with
  | '-' :: rest => (parseNatChars rest).map (fun n => -(n : Int))
  | _ => (parseNatChars s).map (fun n => (n : Int))

/-- parseCalendlySignatureHeader: split the header on commas, trim, split
each part on the equals signs (skipping parts with an empty key or no
value, rejoining multi-part values), keep the last binding of each key, and
require non-empty t and v1 values. -/
def parseCalendlySignatureHeader (headerValue : String) :
    Option (String × String) :=
  let parts := (splitOnChar ',' headerValue.toList).map trimChars
  let pairs : List (List Char × List Char) := parts.filterMap (fun part =>
    match splitOnChar '=' part with
    | [] => none
    | [_] => none
    | k :: rest =>
      if k = [] then none
      else some (trimChars k, trimChars (intercalateChar '=' rest)))
  let t := ((pairs.filter (fun p => p.1 = ['t'])).getLast?).map Prod.snd
  let v1 := ((pairs.filter (fun p => p.1 = ['v', '1'])).getLast?).map Prod.snd
  match t, v1 with
  | some tv, some v1v =>
    if tv = [] ∨ v1v = [] then none
    else some (String.mk tv, String.mk v1v)
  | _, _ => none

/-- constantTimeEqual: equal lengths and a zero or-accumulation of the
character xors. -/
def constantTimeEqual (a b : String) : Bool :=
  a.length == b.length &&
    ((List.zip a.toList b.toList).foldl
      (fun out p => out ||| (p.1.toNat ^^^ p.2.toNat)) 0 == 0)

/-- isFreshTimestampSeconds: the timestamp parses to a positive number and
lies within the clock-skew bound of now. -/
def isFreshTimestampSeconds (now : Int) (t : String) : Bool :=
  match parseIntChars t.toList with
  | none => false
  | some ts =>
    decide (0 < ts) && decide ((now - ts).natAbs ≤ MAX_CLOCK_SKEW_SECONDS)

/-- Outcome of the webhook signature verification: ok, or a failure carrying
the HTTP status and the reason string the handler logs. -/
inductive VerifyResult : Type
  | ok
  | fail (status : Nat) (reason : String)
deriving DecidableEq, Repr

/-- verifyCalendlySignature of the current calendly-webhook revision: reject
a missing header (401), an unconfigured signing key (500, fail closed), a
malformed header (401), a stale timestamp (401), and an HMAC mismatch over
the timestamp-dot-body payload (401); accept otherwise.  The HMAC-SHA256 hex
primitive is passed in as an abstract function. -/
def verifyCalendlySignature (hmacHex : String → String → String)
    (calendlySigningKey : Option String) (now : Int)
    (signatureHeader : Option String) (rawBody : String) : VerifyResult :=
  match signatureHeader with
  | none => .fail 401 "missing_signature_header"
  | some headerValue =>
    match calendlySigningKey with
    | none => .fail 500 "missing_signing_key_env"
    | some key =>
      match parseCalendlySignatureHeader headerValue with
      | none => .fail 401 "invalid_signature_header_format"
      | some (t, v1) =>
        if ¬ isFreshTimestampSeconds now t then
          .fail 401 "stale_signature_timestamp"
        else
          let signedPayload := t ++ "." ++ rawBody
          let expected := hmacHex key signedPayload
          if ¬ constantTimeEqual expected v1 then
            .fail 401 "signature_mismatch"
          else .ok

/-- Scheduling-webhook state: the log of event bodies that reached the
processing stage (the abstraction of the handler's database side effects). -/
structure CalState : Type where
  log : List String
deriving DecidableEq, Repr

/-- The current calendly-webhook serve: verify the signature before any side
effect; on failure answer with the failure's status and touch nothing; on
success process the event. -/
def calendlyServe (hmacHex : String → String → String)
    (calendlySigningKey : Option String) (now : Int)
    (signatureHeader : Option String) (body : String)
    (st : CalState) : Nat × CalState :=
  match verifyCalendlySignature hmacHex calendlySigningKey now
      signatureHeader body with
  | .fail status _ => (status, st)
  | .ok => (200, { st with log := st.log ++ [body] })

/-- The serve of the earlier calendly-webhook revision in which the
signature check is commented out (DEV MODE): every request, signed or not,
is processed and answered 200. -/
def calendlyServeDev (_signatureHeader : Option String) (body : String)
    (st : CalState) : Nat × CalState :=
  (200, { st with log := st.log ++ [body] })

/-- Helper: the final mismatch check only ever fails with status 401. -/
theorem mismatch_ite_status (C : Prop) [Decidable C] (s : Nat) (r : String)
    (h : (if C then VerifyResult.fail 401 "signature_mismatch"
          else VerifyResult.ok) = VerifyResult.fail s r) :
    s = 401 := by
  by_cases hc : C
  · rw [if_pos hc] at h
    simp only [VerifyResult.fail.injEq] at h
    exact h.1.symm
  · rw [if_neg hc] at h
    exact absurd h (by simp)

/-- Helper: every failure the verifier produces carries status 401 or 500. -/
theorem verifyCalendlySignature_fail_status
    (hmacHex : String → String → String) (key : Option String) (now : Int)
    (hdr : Option String) (body : String) :
    ∀ s r, verifyCalendlySignature hmacHex key now hdr body
        = VerifyResult.fail s r → s = 401 ∨ s = 500 := by
  intro s r h
  unfold verifyCalendlySignature at h
  repeat' split at h
  all_goals first
    | exact Or.inl (mismatch_ite_status _ s r h)
    | simp_all

/-- The abstract HMAC used for the concrete evaluations. -/
def hmacConst : String → String → String := fun _ _ => "aa"

/-- C8: the earlier DEV-MODE revision accepts and processes an unsigned
scheduling webhook (a side effect happens and 200 is returned), violating
the fail-closed requirement; the current revision rejects — for every input
the verifier does not accept, the handler answers 401 or 500 with no side
effect, with a missing header, missing signing key, malformed header, stale
timestamp (10 minutes old), and wrong HMAC each rejected as the concrete
evaluations show, while a fresh correctly-signed request is processed. -/
theorem sv_C8_unsigned_request (body : String) :
    (calendlyServeDev none "calendly-invitee-created-1" { log := [] }
        = (200, { log := ["calendly-invitee-created-1"] }))
      ∧ (∀ (hm : String → String → String) (key : Option String) (now : Int)
            (hdr : Option String) (st : CalState),
          verifyCalendlySignature hm key now hdr body ≠ VerifyResult.ok →
            ∃ c, calendlyServe hm key now hdr body st = (c, st)
              ∧ (c = 401 ∨ c = 500))
      ∧ (verifyCalendlySignature hmacConst (some "sv-secret") 1100 none
            "calendly-invitee-created-1"
          = VerifyResult.fail 401 "missing_signature_header")
      ∧ (verifyCalendlySignature hmacConst none 1100 (some "t=1000,v1=aa")
            "b" = VerifyResult.fail 500 "missing_signing_key_env")
      ∧ (verifyCalendlySignature hmacConst (some "sv-secret") 1100
            (some "garbage") "b"
          = VerifyResult.fail 401 "invalid_signature_header_format")
      ∧ (verifyCalendlySignature hmacConst (some "sv-secret") 1600
            (some "t=1000,v1=aa") "b"
          = VerifyResult.fail 401 "stale_signature_timestamp")
      ∧ (verifyCalendlySignature hmacConst (some "sv-secret") 1100
            (some "t=1000,v1=bb") "b"
          = VerifyResult.fail 401 "signature_mismatch")
      ∧ (calendlyServe hmacConst (some "sv-secret") 1100
            (some "t=1000,v1=aa") "b" { log := [] } = (200, { log := ["b"] })) := by
  refine ⟨by decide, ?_, by decide, by decide, by decide, by decide, by decide,
    by decide⟩
  intro hm key now hdr st hne
  cases hv : verifyCalendlySignature hm key now hdr body with
  | ok => exact absurd hv hne
  | fail status reason =>
    refine ⟨status, ?_,
      verifyCalendlySignature_fail_status hm key now hdr body status reason hv⟩
    simp [calendlyServe, hv]

/-- C8 witness: the fail-closed conjunct applied to an unsigned request. -/
theorem sv_C8_witness :
    ∃ c, calendlyServe hmacConst (some "sv-secret") 1100 none
        "calendly-invitee-created-1" { log := [] }
      = (c, ({ log := [] } : CalState)) ∧ (c = 401 ∨ c = 500) :=
  (sv_C8_unsigned_request "calendly-invitee-created-1").2.1 hmacConst
    (some "sv-secret") 1100 none { log := [] } (by decide)

end SVEdge
